import Mathlib

/-!
Verification of `src/scripts/merge_tasks.py`: a script that merges two JSON
task collections, carrying `status` and `subtasks` over from the old
collection while taking every other field from the new collection.

Python dictionaries (the task records) are embedded as association lists of
`String × JVal` pairs in insertion order; `Dict.get?` is `d.get(k)` / `d[k]`
and `Dict.set` is the update performed by `{**d, 'k': v}` (an existing key
keeps its position and gets the new value, a fresh key is appended).
JSON values nested inside a field are a first-order type `JVal` in which
arrays and objects are spelled with explicit cons cells, so that equality
stays decidable by kernel computation.  Fallible evaluation (`KeyError`) is
embedded as `Except String`, the error value being the missing key.
-/

/-- JSON values, as loaded by `json.load`.  Arrays and nested objects are
written with explicit nil/cons constructors (`arr [a, b]` is
`arrCons a (arrCons b arrNil)`) to keep the type non-nested. -/
inductive JVal where
  | null : JVal
  | bool : Bool → JVal
  | str : String → JVal
  | num : Int → JVal
  | arrNil : JVal
  | arrCons : JVal → JVal → JVal
  | objNil : JVal
  | objCons : String → JVal → JVal → JVal
deriving DecidableEq, Repr

/-- A Python dict with string keys, in insertion order. -/
abbrev Dict := List (String × JVal)

/-- `d.get(k)` / `d[k]` lookup: value at key `k`, if present. -/
def Dict.get? (d : Dict) (k : String) : Option JVal :=
  match d with
  | [] => none
  | (k', v) :: rest => if k' = k then some v else Dict.get? rest k

/-- `d.get(k, dflt)`: lookup with a default. -/
def Dict.getD (d : Dict) (k : String) (dflt : JVal) : JVal :=
  (Dict.get? d k).getD dflt

/-- The update `{**d, k: v}` (equivalently `d[k] = v`): an existing key keeps
its position and gets the new value, a fresh key is appended at the end. -/
def Dict.set (d : Dict) (k : String) (v : JVal) : Dict :=
  match d with
  | [] => [(k, v)]
  | (k', v') :: rest => if k' = k then (k', v) :: rest else (k', v') :: Dict.set rest k v

example : Dict.get? [("a", JVal.num 1), ("b", JVal.num 2)] "b" = some (JVal.num 2) := by decide
example : Dict.set [("a", JVal.num 1)] "a" JVal.null = [("a", JVal.null)] := by decide
example : Dict.set [("a", JVal.num 1)] "b" JVal.null
    = [("a", JVal.num 1), ("b", JVal.null)] := by decide

/-- A task collection: the script only ever accesses the `tasks` key of the
two loaded JSON documents, so a collection is embedded as its ordered task
sequence (`doc['tasks']`). -/
structure Collection where
  tasks : List Dict
deriving DecidableEq, Repr

/-- The `id → task` map keyed by a JSON value, as built by the dict
comprehension.  Embedded as an association list where `TaskMap.set` has
Python-dict update semantics. -/
abbrev TaskMap := List (JVal × Dict)

/-- Lookup `m.get(i, ...)` in the id map: first match. -/
def TaskMap.get? (m : TaskMap) (i : JVal) : Option Dict :=
  match m with
  | [] => none
  | (i', t) :: rest => if i' = i then some t else TaskMap.get? rest i

/-- Insertion `m[i] = t`: an existing key keeps its position and gets the
new value (so a later duplicate id overwrites an earlier one). -/
def TaskMap.set (m : TaskMap) (i : JVal) (t : Dict) : TaskMap :=
  match m with
  | [] => [(i, t)]
  | (i', t') :: rest => if i' = i then (i', t) :: rest else (i', t') :: TaskMap.set rest i t

/-- `{task['id']: task for task in tasks}`, threading the map being built:
each task's `id` is read (raising `KeyError 'id'` when absent) and the task
is inserted, later tasks overwriting earlier ones with the same id. -/
def existingTasksMapFrom (m : TaskMap) (tasks : List Dict) : Except String TaskMap :=
  match tasks with
  | [] => .ok m
  | t :: rest =>
    match Dict.get? t "id" with
    | none => .error "id"
    | some i => existingTasksMapFrom (TaskMap.set m i t) rest

/-- `existing_tasks_map = {task['id']: task for task in existing_tasks['tasks']}`. -/
def existing_tasks_map (oldTasks : List Dict) : Except String TaskMap :=
  existingTasksMapFrom [] oldTasks

/-- One element of the merged list:
`{**new_task,
  'status': existing_tasks_map.get(new_task['id'], {}).get('status', new_task['status']),
  'subtasks': existing_tasks_map.get(new_task['id'], {}).get('subtasks', new_task.get('subtasks', []))}`.
`new_task['id']` is read first and `new_task['status']` is read
unconditionally (Python evaluates the default argument of `.get` eagerly),
each raising `KeyError` when absent. -/
def mergeTask (m : TaskMap) (new_task : Dict) : Except String Dict :=
  match Dict.get? new_task "id" with
  | none => .error "id"
  | some i =>
    match Dict.get? new_task "status" with
    | none => .error "status"
    | some newStatus =>
      let oldTask : Dict := (TaskMap.get? m i).getD []
      let status := Dict.getD oldTask "status" newStatus
      let subtasks := Dict.getD oldTask "subtasks" (Dict.getD new_task "subtasks" JVal.arrNil)
      .ok (Dict.set (Dict.set new_task "status" status) "subtasks" subtasks)

/-- The list comprehension over `new_tasks['tasks']`: the first `KeyError`
aborts the whole comprehension. -/
def mergeTaskList (m : TaskMap) (newTasks : List Dict) : Except String (List Dict) :=
  match newTasks with
  | [] => .ok []
  | nt :: rest =>
    match mergeTask m nt with
    | .error e => .error e
    | .ok t =>
      match mergeTaskList m rest with
      | .error e => .error e
      | .ok ts => .ok (t :: ts)

/-- `merged_tasks`: the whole merge, from the two loaded collections to the
merged collection.  The lookup map over the old tasks is built first (the
comprehension runs eagerly), then every new task is merged in order; any
`KeyError` aborts the operation with no partial result. -/
def merged_tasks (old new : Collection) : Except String Collection :=
  match existing_tasks_map old.tasks with
  | .error e => .error e
  | .ok m =>
    match mergeTaskList m new.tasks with
    | .error e => .error e
    | .ok ts => .ok ⟨ts⟩

/-- The last task of `ts` whose `id` field equals `i`, if any.  This is what
a Python dict comprehension retains for a duplicated key. -/
def lookupLast (ts : List Dict) (i : JVal) : Option Dict :=
  match ts with
  | [] => none
  | t :: rest =>
    match lookupLast rest i with
    | some r => some r
    | none => if Dict.get? t "id" = some i then some t else none

deriving instance DecidableEq for Except

/-! ### Concrete collections: the worked example of the spec, and small
variations used to exercise the edge cases. -/

/-- The subtask list `[{"id": "1.1"}]` of the spec's example. -/
def exSub : JVal := JVal.arrCons (JVal.objCons "id" (JVal.str "1.1") JVal.objNil) JVal.arrNil

/-- Old task `{"id": 1, "status": "done", "subtasks": [{"id": "1.1"}]}`. -/
def exOld1 : Dict := [("id", JVal.num 1), ("status", JVal.str "done"), ("subtasks", exSub)]

/-- Old task `{"id": 2, "status": "pending"}`. -/
def exOld2 : Dict := [("id", JVal.num 2), ("status", JVal.str "pending")]

/-- New task `{"id": 1, "status": "pending", "title": "A"}`. -/
def exNew1 : Dict := [("id", JVal.num 1), ("status", JVal.str "pending"), ("title", JVal.str "A")]

/-- New task `{"id": 3, "status": "pending", "title": "C"}`. -/
def exNew3 : Dict := [("id", JVal.num 3), ("status", JVal.str "pending"), ("title", JVal.str "C")]

/-- Expected merged task `{"id": 1, "status": "done", "title": "A", "subtasks": [{"id": "1.1"}]}`. -/
def exMerged1 : Dict :=
  [("id", JVal.num 1), ("status", JVal.str "done"), ("title", JVal.str "A"), ("subtasks", exSub)]

/-- Expected merged task `{"id": 3, "status": "pending", "title": "C", "subtasks": []}`. -/
def exMerged3 : Dict :=
  [("id", JVal.num 3), ("status", JVal.str "pending"), ("title", JVal.str "C"),
   ("subtasks", JVal.arrNil)]

/-- A new collection with a duplicated id `1`: first `status` `"a"`, then `"b"`. -/
def dupNew : Collection :=
  ⟨[[("id", JVal.num 1), ("status", JVal.str "a")], [("id", JVal.num 1), ("status", JVal.str "b")]]⟩

/-- What merging `dupNew` into an empty old collection produces. -/
def dupMerged : Collection :=
  ⟨[[("id", JVal.num 1), ("status", JVal.str "a"), ("subtasks", JVal.arrNil)],
    [("id", JVal.num 1), ("status", JVal.str "b"), ("subtasks", JVal.arrNil)]]⟩

/-! ### Lemmas about dict lookup and update -/

theorem Dict.get?_set (d : Dict) (k : String) (v : JVal) (q : String) :
    Dict.get? (Dict.set d k v) q = if q = k then some v else Dict.get? d q := by
  induction d with
  | nil =>
    simp only [Dict.set, Dict.get?]
    by_cases h : q = k
    · subst h; simp
    · rw [if_neg (Ne.symm h), if_neg h]
  | cons p rest ih =>
    obtain ⟨a, b⟩ := p
    simp only [Dict.set]
    by_cases hak : a = k
    · subst hak
      simp only [if_pos rfl, Dict.get?]
      by_cases haq : a = q
      · subst haq; simp
      · rw [if_neg haq, if_neg (Ne.symm haq), if_neg haq]
    · rw [if_neg hak]
      simp only [Dict.get?]
      by_cases haq : a = q
      · subst haq
        rw [if_pos rfl, if_neg hak, if_pos rfl]
      · rw [if_neg haq, if_neg haq, ih]

theorem Dict.set_of_get?_eq (d : Dict) (k : String) (v : JVal)
    (h : Dict.get? d k = some v) : Dict.set d k v = d := by
  induction d with
  | nil => simp [Dict.get?] at h
  | cons p rest ih =>
    obtain ⟨a, b⟩ := p
    by_cases hak : a = k
    · subst hak
      simp [Dict.get?] at h
      simp [Dict.set, h]
    · simp [Dict.get?, hak] at h
      simp [Dict.set, hak, ih h]

theorem TaskMap.get?_set_eq (m : TaskMap) (k : JVal) (t : Dict) (q : JVal) :
    TaskMap.get? (TaskMap.set m k t) q = if q = k then some t else TaskMap.get? m q := by
  induction m with
  | nil =>
    simp only [TaskMap.set, TaskMap.get?]
    by_cases h : q = k
    · subst h; simp
    · rw [if_neg (Ne.symm h), if_neg h]
  | cons p rest ih =>
    obtain ⟨a, b⟩ := p
    simp only [TaskMap.set]
    by_cases hak : a = k
    · subst hak
      simp only [if_pos rfl, TaskMap.get?]
      by_cases haq : a = q
      · subst haq; simp
      · rw [if_neg haq, if_neg (Ne.symm haq), if_neg haq]
    · rw [if_neg hak]
      simp only [TaskMap.get?]
      by_cases haq : a = q
      · subst haq
        rw [if_pos rfl, if_neg hak, if_pos rfl]
      · rw [if_neg haq, if_neg haq, ih]

/-! ### Lemmas about the id map built from the old tasks -/

theorem existingTasksMapFrom_get (ts : List Dict) : ∀ (m0 m : TaskMap),
    existingTasksMapFrom m0 ts = .ok m → ∀ i : JVal,
    TaskMap.get? m i =
      match lookupLast ts i with
      | some t => some t
      | none => TaskMap.get? m0 i := by
  induction ts with
  | nil =>
    intro m0 m h i
    simp [existingTasksMapFrom] at h
    subst h
    simp [lookupLast]
  | cons t rest ih =>
    intro m0 m h i
    unfold existingTasksMapFrom at h
    cases hid : Dict.get? t "id" with
    | none => simp [hid] at h
    | some j =>
      simp only [hid] at h
      have := ih (TaskMap.set m0 j t) m h i
      rw [this]
      cases hl : lookupLast rest i with
      | some r => simp [lookupLast, hl]
      | none =>
        simp only [lookupLast, hl]
        rw [TaskMap.get?_set_eq]
        by_cases hij : i = j
        · subst hij; simp [hid]
        · have : ¬ (Dict.get? t "id" = some i) := by
            rw [hid]; intro hcontra
            exact hij (Option.some.inj hcontra).symm
          simp [hij, this]

theorem existingTasksMapFrom_ok (ts : List Dict)
    (hids : ∀ t ∈ ts, (Dict.get? t "id").isSome) :
    ∀ m0 : TaskMap, ∃ m, existingTasksMapFrom m0 ts = .ok m := by
  induction ts with
  | nil => intro m0; exact ⟨m0, rfl⟩
  | cons t rest ih =>
    intro m0
    have ht : (Dict.get? t "id").isSome := hids t (List.mem_cons_self t rest)
    obtain ⟨j, hj⟩ := Option.isSome_iff_exists.mp ht
    obtain ⟨m, hm⟩ := ih (fun t' ht' => hids t' (List.mem_cons_of_mem t ht')) (TaskMap.set m0 j t)
    exact ⟨m, by simp [existingTasksMapFrom, hj, hm]⟩

theorem lookupLast_mem (ts : List Dict) (i : JVal) (r : Dict)
    (h : lookupLast ts i = some r) : r ∈ ts ∧ Dict.get? r "id" = some i := by
  induction ts with
  | nil => simp [lookupLast] at h
  | cons t rest ih =>
    unfold lookupLast at h
    cases hl : lookupLast rest i with
    | some r' =>
      rw [hl] at h
      obtain rfl : r' = r := Option.some.inj h
      obtain ⟨hmem, hid⟩ := ih hl
      exact ⟨List.mem_cons_of_mem t hmem, hid⟩
    | none =>
      rw [hl] at h
      by_cases hid : Dict.get? t "id" = some i
      · rw [if_pos hid] at h
        obtain rfl : t = r := Option.some.inj h
        exact ⟨List.mem_cons_self _ _, hid⟩
      · rw [if_neg hid] at h
        exact absurd h (by simp)

theorem lookupLast_eq_none (ts : List Dict) (i : JVal)
    (h : ∀ t ∈ ts, Dict.get? t "id" ≠ some i) : lookupLast ts i = none := by
  induction ts with
  | nil => rfl
  | cons t rest ih =>
    unfold lookupLast
    rw [ih (fun t' ht' => h t' (List.mem_cons_of_mem t ht'))]
    rw [if_neg (h t (List.mem_cons_self t rest))]

theorem lookupLast_of_nodup (ts : List Dict) (t : Dict) (i : JVal)
    (hmem : t ∈ ts) (hid : Dict.get? t "id" = some i)
    (hnd : (ts.map (fun u => Dict.get? u "id")).Nodup) :
    lookupLast ts i = some t := by
  induction ts with
  | nil => simp at hmem
  | cons a rest ih =>
    simp only [List.map_cons, List.nodup_cons] at hnd
    obtain ⟨hnotin, hndrest⟩ := hnd
    rcases List.mem_cons.mp hmem with rfl | hmem'
    · have hnone : lookupLast rest i = none := by
        apply lookupLast_eq_none
        intro u hu hcontra
        exact hnotin (by rw [hid, ← hcontra]; exact List.mem_map_of_mem _ hu)
      unfold lookupLast
      rw [hnone, if_pos hid]
    · unfold lookupLast
      rw [ih hmem' hndrest]

/-! ### Lemmas about the per-task merge -/

/-- The shape of every successfully merged entry: the new task with
`status` and then `subtasks` updated to the values computed from the map. -/
theorem mergeTask_ok (m : TaskMap) (nt t : Dict) (h : mergeTask m nt = .ok t) :
    ∃ i newStatus,
      Dict.get? nt "id" = some i ∧
      Dict.get? nt "status" = some newStatus ∧
      t = Dict.set (Dict.set nt "status"
            (Dict.getD ((TaskMap.get? m i).getD []) "status" newStatus)) "subtasks"
            (Dict.getD ((TaskMap.get? m i).getD []) "subtasks"
              (Dict.getD nt "subtasks" JVal.arrNil)) := by
  unfold mergeTask at h
  cases hid : Dict.get? nt "id" with
  | none => rw [hid] at h; exact absurd h (by simp)
  | some i =>
    rw [hid] at h
    cases hst : Dict.get? nt "status" with
    | none => rw [hst] at h; exact absurd h (by simp)
    | some newStatus =>
      rw [hst] at h
      exact ⟨i, newStatus, rfl, rfl, (Except.ok.inj h).symm⟩

theorem mergeTask_isOk (m : TaskMap) (nt : Dict)
    (hid : (Dict.get? nt "id").isSome) (hst : (Dict.get? nt "status").isSome) :
    ∃ t, mergeTask m nt = .ok t := by
  obtain ⟨i, hi⟩ := Option.isSome_iff_exists.mp hid
  obtain ⟨s, hs⟩ := Option.isSome_iff_exists.mp hst
  exact ⟨_, by unfold mergeTask; rw [hi, hs]⟩

/-- Merged entries keep the `id` of the new task, and every field other
than `status` and `subtasks` of the new task. -/
theorem mergeTask_get?_other (m : TaskMap) (nt t : Dict) (h : mergeTask m nt = .ok t)
    (q : String) (hq1 : q ≠ "status") (hq2 : q ≠ "subtasks") :
    Dict.get? t q = Dict.get? nt q := by
  obtain ⟨i, s, _, _, rfl⟩ := mergeTask_ok m nt t h
  rw [Dict.get?_set, if_neg hq2, Dict.get?_set, if_neg hq1]

theorem mergeTask_get?_id (m : TaskMap) (nt t : Dict) (h : mergeTask m nt = .ok t) :
    Dict.get? t "id" = Dict.get? nt "id" := by
  refine mergeTask_get?_other m nt t h "id" ?_ ?_ <;> decide

/-! ### Lemmas about the merged list -/

theorem mergeTaskList_ok_iff (m : TaskMap) (nts : List Dict) : ∀ ts : List Dict,
    mergeTaskList m nts = .ok ts ↔
      List.Forall₂ (fun nt t => mergeTask m nt = .ok t) nts ts := by
  induction nts with
  | nil =>
    intro ts
    simp only [mergeTaskList, List.forall₂_nil_left_iff]
    constructor
    · intro h; exact (Except.ok.inj h).symm
    · intro h; rw [h]
  | cons nt rest ih =>
    intro ts
    constructor
    · intro h
      unfold mergeTaskList at h
      cases hm : mergeTask m nt with
      | error e => rw [hm] at h; exact Except.noConfusion h
      | ok t =>
        rw [hm] at h
        cases hr : mergeTaskList m rest with
        | error e => rw [hr] at h; exact Except.noConfusion h
        | ok ts' =>
          rw [hr] at h
          obtain rfl : t :: ts' = ts := Except.ok.inj h
          exact List.Forall₂.cons hm ((ih ts').mp hr)
    · intro h
      cases h with
      | cons hm hrest =>
        unfold mergeTaskList
        rw [hm, (ih _).mpr hrest]

theorem mergeTaskList_isOk (m : TaskMap) (nts : List Dict)
    (h : ∀ nt ∈ nts, (Dict.get? nt "id").isSome ∧ (Dict.get? nt "status").isSome) :
    ∃ ts, mergeTaskList m nts = .ok ts := by
  induction nts with
  | nil => exact ⟨[], rfl⟩
  | cons nt rest ih =>
    obtain ⟨hid, hst⟩ := h nt (List.mem_cons_self nt rest)
    obtain ⟨t, ht⟩ := mergeTask_isOk m nt hid hst
    obtain ⟨ts, hts⟩ := ih (fun u hu => h u (List.mem_cons_of_mem nt hu))
    exact ⟨t :: ts, by unfold mergeTaskList; rw [ht, hts]⟩

theorem mergeTaskList_missing_id (m : TaskMap) (nts : List Dict)
    (h : ∃ nt ∈ nts, Dict.get? nt "id" = none) :
    ∃ e, mergeTaskList m nts = .error e := by
  induction nts with
  | nil => simp at h
  | cons nt rest ih =>
    obtain ⟨u, hu, hid'⟩ := h
    cases hm : mergeTask m nt with
    | error e => exact ⟨e, by unfold mergeTaskList; rw [hm]⟩
    | ok t =>
      rcases List.mem_cons.mp hu with rfl | hmem
      · obtain ⟨i, s, hi, _, _⟩ := mergeTask_ok m u t hm
        rw [hid'] at hi
        exact absurd hi (by simp)
      · obtain ⟨e, he⟩ := ih ⟨u, hmem, hid'⟩
        refine ⟨e, ?_⟩
        unfold mergeTaskList
        rw [hm, he]

theorem existingTasksMapFrom_missing_id (ts : List Dict)
    (h : ∃ t ∈ ts, Dict.get? t "id" = none) :
    ∀ m0 : TaskMap, existingTasksMapFrom m0 ts = .error "id" := by
  induction ts with
  | nil => simp at h
  | cons t rest ih =>
    intro m0
    obtain ⟨t', ht', hid'⟩ := h
    rcases List.mem_cons.mp ht' with rfl | hmem
    · simp [existingTasksMapFrom, hid']
    · cases hid : Dict.get? t "id" with
      | none => simp [existingTasksMapFrom, hid]
      | some j => simp [existingTasksMapFrom, hid, ih ⟨t', hmem, hid'⟩]

/-! ### Shape of a merged entry and top-level destructors -/

theorem Dict.get?_shape_status (nt : Dict) (s ss : JVal) :
    Dict.get? (Dict.set (Dict.set nt "status" s) "subtasks" ss) "status" = some s := by
  rw [Dict.get?_set, if_neg (by decide), Dict.get?_set, if_pos rfl]

theorem Dict.get?_shape_subtasks (nt : Dict) (s ss : JVal) :
    Dict.get? (Dict.set (Dict.set nt "status" s) "subtasks" ss) "subtasks" = some ss := by
  rw [Dict.get?_set, if_pos rfl]

theorem merged_tasks_ok (old new c : Collection) (h : merged_tasks old new = .ok c) :
    ∃ m, existing_tasks_map old.tasks = .ok m ∧ mergeTaskList m new.tasks = .ok c.tasks := by
  cases hm : existing_tasks_map old.tasks with
  | error e => simp only [merged_tasks, hm, reduceCtorEq] at h
  | ok m =>
    simp only [merged_tasks, hm] at h
    cases hl : mergeTaskList m new.tasks with
    | error e => simp only [hl, reduceCtorEq] at h
    | ok ts =>
      simp only [hl, Except.ok.injEq] at h
      refine ⟨m, rfl, ?_⟩
      rw [← h]
      exact hl

theorem existing_tasks_map_get (oldTasks : List Dict) (m : TaskMap)
    (h : existing_tasks_map oldTasks = .ok m) (i : JVal) :
    TaskMap.get? m i = lookupLast oldTasks i := by
  rw [existingTasksMapFrom_get oldTasks [] m h i]
  cases lookupLast oldTasks i <;> rfl

theorem merged_tasks_isOk (old new : Collection)
    (hold : ∀ t ∈ old.tasks, (Dict.get? t "id").isSome)
    (hnew : ∀ nt ∈ new.tasks, (Dict.get? nt "id").isSome ∧ (Dict.get? nt "status").isSome) :
    ∃ c, merged_tasks old new = .ok c := by
  obtain ⟨m, hm⟩ := existingTasksMapFrom_ok old.tasks hold []
  obtain ⟨ts, hts⟩ := mergeTaskList_isOk m new.tasks hnew
  refine ⟨⟨ts⟩, ?_⟩
  simp only [merged_tasks, existing_tasks_map, hm, hts]

theorem lookupLast_cons (t : Dict) (rest : List Dict) (i : JVal) :
    lookupLast (t :: rest) i =
      match lookupLast rest i with
      | some r => some r
      | none => if Dict.get? t "id" = some i then some t else none := rfl

theorem lookupLast_append (as bs : List Dict) (i : JVal) :
    lookupLast (as ++ bs) i =
      match lookupLast bs i with
      | some r => some r
      | none => lookupLast as i := by
  induction as with
  | nil =>
    simp only [List.nil_append]
    cases lookupLast bs i <;> rfl
  | cons a rest ih =>
    rw [List.cons_append, lookupLast_cons, ih, lookupLast_cons]
    cases lookupLast bs i <;> cases lookupLast rest i <;> rfl

theorem forall2_merge_map_id (m : TaskMap) (nts ts : List Dict)
    (h : List.Forall₂ (fun nt t => mergeTask m nt = .ok t) nts ts) :
    ts.map (fun t => Dict.get? t "id") = nts.map (fun t => Dict.get? t "id") := by
  induction h with
  | nil => rfl
  | cons hpair _ ih =>
    simp only [List.map_cons, ih, List.cons.injEq, and_true]
    exact mergeTask_get?_id _ _ _ hpair

theorem mergeTaskList_error_status (m : TaskMap) (nts : List Dict) : ∀ (k : Nat)
    (hk : k < nts.length),
    (∀ nt ∈ nts, (Dict.get? nt "id").isSome) →
    (∀ (j : Nat) (hj : j < nts.length), j < k → (Dict.get? (nts.get ⟨j, hj⟩) "status").isSome) →
    Dict.get? (nts.get ⟨k, hk⟩) "status" = none →
    mergeTaskList m nts = .error "status" := by
  induction nts with
  | nil => intro k hk; exact absurd hk (by simp)
  | cons nt rest ih =>
    intro k hk hids hbefore hmiss
    cases k with
    | zero =>
      obtain ⟨i, hi⟩ := Option.isSome_iff_exists.mp (hids nt (List.mem_cons_self nt rest))
      have hmiss0 : Dict.get? nt "status" = none := hmiss
      have hnt : mergeTask m nt = .error "status" := by
        simp only [mergeTask, hi, hmiss0]
      simp only [mergeTaskList, hnt]
    | succ j =>
      have hhead : (Dict.get? nt "status").isSome :=
        hbefore 0 (Nat.zero_lt_succ _) (Nat.zero_lt_succ _)
      obtain ⟨t, ht⟩ := mergeTask_isOk m nt (hids nt (List.mem_cons_self nt rest)) hhead
      have hmiss0 : Dict.get? (rest.get ⟨j, Nat.lt_of_succ_lt_succ hk⟩) "status" = none := hmiss
      have hrest : mergeTaskList m rest = .error "status" := by
        refine ih j (Nat.lt_of_succ_lt_succ hk)
          (fun u hu => hids u (List.mem_cons_of_mem nt hu)) ?_ hmiss0
        intro j' hj' hlt
        exact hbefore (j' + 1) (Nat.succ_lt_succ hj') (Nat.succ_lt_succ hlt)
      simp only [mergeTaskList, ht, hrest]

/-! ### Claims -/

/-- C8: on the spec's concrete example inputs — old containing tasks 1 and 2,
new containing tasks 1 and 3 — the merge produces exactly the stated expected
output: task 1 with the old status `"done"` and old subtasks plus the new
title, task 3 unchanged except for an added empty `subtasks` sequence, and
task 2 absent. -/
theorem merge_spec_example :
    merged_tasks ⟨[exOld1, exOld2]⟩ ⟨[exNew1, exNew3]⟩ = .ok ⟨[exMerged1, exMerged3]⟩ := by
  decide

/-- C4: for every pair of input collections, the merged output's task
sequence has the same length as the new collection's, and the task at each
position of the output has the same `id` as the task at the same position of
the new collection. -/
theorem merge_preserves_order (old new c : Collection) (h : merged_tasks old new = .ok c) :
    c.tasks.length = new.tasks.length ∧
    ∀ (k : Nat) (h1 : k < c.tasks.length) (h2 : k < new.tasks.length),
      Dict.get? (c.tasks.get ⟨k, h1⟩) "id" = Dict.get? (new.tasks.get ⟨k, h2⟩) "id" := by
  obtain ⟨m, hm, hl⟩ := merged_tasks_ok old new c h
  have hf := (mergeTaskList_ok_iff m new.tasks c.tasks).mp hl
  refine ⟨hf.length_eq.symm, ?_⟩
  intro k h1 h2
  exact mergeTask_get?_id m _ _ ((List.forall₂_iff_get.mp hf).2 k h2 h1)

/-- Witness for C4 at the spec's example. -/
theorem merge_preserves_order_witness :
    (Collection.mk [exMerged1, exMerged3]).tasks.length
        = (Collection.mk [exNew1, exNew3]).tasks.length ∧
    ∀ (k : Nat) (h1 : k < (Collection.mk [exMerged1, exMerged3]).tasks.length)
      (h2 : k < (Collection.mk [exNew1, exNew3]).tasks.length),
      Dict.get? ((Collection.mk [exMerged1, exMerged3]).tasks.get ⟨k, h1⟩) "id"
        = Dict.get? ((Collection.mk [exNew1, exNew3]).tasks.get ⟨k, h2⟩) "id" :=
  merge_preserves_order ⟨[exOld1, exOld2]⟩ ⟨[exNew1, exNew3]⟩ ⟨[exMerged1, exMerged3]⟩ (by decide)

/-- C5: a task whose `id` appears only in the old collection never reaches
the output, and its presence is no error: for well-formed inputs the merge
succeeds and no output task carries such an id. -/
theorem merge_drops_old_only (old new : Collection) (x : JVal)
    (hold : ∀ t ∈ old.tasks, (Dict.get? t "id").isSome)
    (hnew : ∀ nt ∈ new.tasks, (Dict.get? nt "id").isSome ∧ (Dict.get? nt "status").isSome)
    (hx : ∀ nt ∈ new.tasks, Dict.get? nt "id" ≠ some x) :
    ∃ c, merged_tasks old new = .ok c ∧ ∀ t ∈ c.tasks, Dict.get? t "id" ≠ some x := by
  obtain ⟨c, hc⟩ := merged_tasks_isOk old new hold hnew
  refine ⟨c, hc, ?_⟩
  intro t ht
  obtain ⟨m, hm, hl⟩ := merged_tasks_ok old new c hc
  have hf := (mergeTaskList_ok_iff m new.tasks c.tasks).mp hl
  obtain ⟨⟨k, hk⟩, rfl⟩ := List.mem_iff_get.mp ht
  have h2 : k < new.tasks.length := by rw [hf.length_eq]; exact hk
  rw [mergeTask_get?_id m _ _ ((List.forall₂_iff_get.mp hf).2 k h2 hk)]
  exact hx _ (List.get_mem new.tasks k h2)

/-- Witness for C5: id `2` is only in the old collection and is dropped. -/
theorem merge_drops_old_only_witness :
    ∃ c, merged_tasks ⟨[exOld1, exOld2]⟩ ⟨[exNew1, exNew3]⟩ = .ok c ∧
      ∀ t ∈ c.tasks, Dict.get? t "id" ≠ some (JVal.num 2) :=
  merge_drops_old_only ⟨[exOld1, exOld2]⟩ ⟨[exNew1, exNew3]⟩ (JVal.num 2)
    (by decide) (by decide) (by decide)

/-- C7: whenever any task entry of either input lacks an `id` field, the
merge fails (in this embedding every failure is a `KeyError` naming the
missing key) and returns no merged collection at all. -/
theorem merge_missing_id_fails (old new : Collection)
    (h : (∃ t ∈ old.tasks, Dict.get? t "id" = none) ∨
         (∃ t ∈ new.tasks, Dict.get? t "id" = none)) :
    ∃ e, merged_tasks old new = .error e := by
  rcases h with holdm | hnewm
  · refine ⟨"id", ?_⟩
    have hmap := existingTasksMapFrom_missing_id old.tasks holdm []
    simp only [merged_tasks, existing_tasks_map, hmap]
  · cases hm : existing_tasks_map old.tasks with
    | error e => exact ⟨e, by simp only [merged_tasks, hm]⟩
    | ok m =>
      obtain ⟨e, he⟩ := mergeTaskList_missing_id m new.tasks hnewm
      exact ⟨e, by simp only [merged_tasks, hm, he]⟩

/-- Witness for C7: an old task without an id aborts the merge. -/
theorem merge_missing_id_fails_witness :
    ∃ e, merged_tasks ⟨[[("status", JVal.str "x")]]⟩ ⟨[exNew1]⟩ = .error e :=
  merge_missing_id_fails ⟨[[("status", JVal.str "x")]]⟩ ⟨[exNew1]⟩ (Or.inl (by decide))

/-- C9: a new task without a `status` field makes the merge fail with a
`KeyError` on `status` — even when a matching old task carries a `status`
that would supply the merged value — because `new_task['status']` is
evaluated unconditionally as the eager default argument of `.get`. -/
theorem merge_missing_status_fails (old new : Collection) (k : Nat)
    (hk : k < new.tasks.length)
    (hold : ∀ t ∈ old.tasks, (Dict.get? t "id").isSome)
    (hids : ∀ nt ∈ new.tasks, (Dict.get? nt "id").isSome)
    (hbefore : ∀ (j : Nat) (hj : j < new.tasks.length), j < k →
      (Dict.get? (new.tasks.get ⟨j, hj⟩) "status").isSome)
    (hmiss : Dict.get? (new.tasks.get ⟨k, hk⟩) "status" = none) :
    merged_tasks old new = .error "status" := by
  obtain ⟨m, hm⟩ := existingTasksMapFrom_ok old.tasks hold []
  have hl := mergeTaskList_error_status m new.tasks k hk hids hbefore hmiss
  simp only [merged_tasks, existing_tasks_map, hm, hl]

/-- Witness for C9: the old collection has task 1 with status `"done"`,
yet a new task 1 without `status` still aborts the merge. -/
theorem merge_missing_status_fails_witness :
    merged_tasks ⟨[exOld1]⟩ ⟨[[("id", JVal.num 1)]]⟩ = .error "status" :=
  merge_missing_status_fails ⟨[exOld1]⟩ ⟨[[("id", JVal.num 1)]]⟩ 0 (by decide)
    (by decide) (by decide) (fun j hj hlt => absurd hlt (Nat.not_lt_zero j)) (by decide)

/-- C1 counterexample: task 1 is present in both collections; the old entry
has no `subtasks` field, yet the merged entry's `subtasks` is the new
entry's list — neither the old entry's (absent) field nor the empty default
the spec describes.  So the merged `subtasks` does not equal the old entry's
corresponding field. -/
theorem merge_fields_from_old_cex :
    merged_tasks ⟨[[("id", JVal.num 1), ("status", JVal.str "done")]]⟩
        ⟨[[("id", JVal.num 1), ("status", JVal.str "redo"), ("subtasks", exSub)]]⟩
      = .ok ⟨[[("id", JVal.num 1), ("status", JVal.str "done"), ("subtasks", exSub)]]⟩
    ∧ Dict.get? [("id", JVal.num 1), ("status", JVal.str "done"), ("subtasks", exSub)] "subtasks"
        = some exSub
    ∧ Dict.get? [("id", JVal.num 1), ("status", JVal.str "done")] "subtasks" = none
    ∧ exSub ≠ JVal.arrNil := by decide

/-- C1 (amended): for a task present in both collections (old ids assumed
unique, as the spec's data-model invariant states), the merged entry's
`status` and `subtasks` equal the old entry's fields whenever the old entry
actually has them, and every other field equals the new entry's field.
When the old entry lacks `status` the new entry's is kept; when it lacks
`subtasks` the new entry's (or `[]`) is used. -/
theorem merge_fields_from_old (old new c : Collection) (h : merged_tasks old new = .ok c)
    (hnd : (old.tasks.map (fun t => Dict.get? t "id")).Nodup)
    (k : Nat) (h1 : k < c.tasks.length) (h2 : k < new.tasks.length)
    (ot : Dict) (hmem : ot ∈ old.tasks) (i : JVal)
    (hoid : Dict.get? ot "id" = some i)
    (hnid : Dict.get? (new.tasks.get ⟨k, h2⟩) "id" = some i) :
    (∀ s, Dict.get? ot "status" = some s →
      Dict.get? (c.tasks.get ⟨k, h1⟩) "status" = some s) ∧
    (Dict.get? ot "status" = none →
      Dict.get? (c.tasks.get ⟨k, h1⟩) "status"
        = Dict.get? (new.tasks.get ⟨k, h2⟩) "status") ∧
    (∀ ss, Dict.get? ot "subtasks" = some ss →
      Dict.get? (c.tasks.get ⟨k, h1⟩) "subtasks" = some ss) ∧
    (Dict.get? ot "subtasks" = none →
      Dict.get? (c.tasks.get ⟨k, h1⟩) "subtasks"
        = some (Dict.getD (new.tasks.get ⟨k, h2⟩) "subtasks" JVal.arrNil)) ∧
    (∀ q, q ≠ "status" → q ≠ "subtasks" →
      Dict.get? (c.tasks.get ⟨k, h1⟩) q = Dict.get? (new.tasks.get ⟨k, h2⟩) q) := by
  obtain ⟨m, hm, hl⟩ := merged_tasks_ok old new c h
  have hf := (mergeTaskList_ok_iff m new.tasks c.tasks).mp hl
  have hp := (List.forall₂_iff_get.mp hf).2 k h2 h1
  have hmget : TaskMap.get? m i = some ot := by
    rw [existing_tasks_map_get old.tasks m hm i,
      lookupLast_of_nodup old.tasks ot i hmem hoid hnd]
  obtain ⟨i', st, hi', hst, hshape⟩ := mergeTask_ok m _ _ hp
  rw [hnid] at hi'
  obtain rfl : i = i' := Option.some.inj hi'
  refine ⟨?_, ?_, ?_, ?_, ?_⟩
  · intro s hs
    rw [hshape, Dict.get?_shape_status, hmget]
    simp only [Option.getD_some, Dict.getD, hs]
  · intro hsnone
    rw [hshape, Dict.get?_shape_status, hmget]
    simp only [Option.getD_some, Dict.getD, hsnone, Option.getD_none]
    exact hst.symm
  · intro ss hss
    rw [hshape, Dict.get?_shape_subtasks, hmget]
    simp only [Option.getD_some, Dict.getD, hss]
  · intro hssnone
    rw [hshape, Dict.get?_shape_subtasks, hmget]
    simp only [Option.getD_some, Dict.getD, hssnone, Option.getD_none]
  · intro q hq1 hq2
    exact mergeTask_get?_other m _ _ hp q hq1 hq2

/-- Witness for the amended C1 at an old task `{"id": 1}` with neither
`status` nor `subtasks`: the fallback branches are non-vacuous and give the
new entry's `status` and an empty `subtasks`. -/
theorem merge_fields_from_old_witness :
    (∀ s, Dict.get? [("id", JVal.num 1)] "status" = some s →
      Dict.get? ((Collection.mk [[("id", JVal.num 1), ("status", JVal.str "pending"),
          ("title", JVal.str "A"), ("subtasks", JVal.arrNil)]]).tasks.get ⟨0, by decide⟩)
        "status" = some s) ∧
    (Dict.get? [("id", JVal.num 1)] "status" = none →
      Dict.get? ((Collection.mk [[("id", JVal.num 1), ("status", JVal.str "pending"),
          ("title", JVal.str "A"), ("subtasks", JVal.arrNil)]]).tasks.get ⟨0, by decide⟩)
        "status" = Dict.get? ((Collection.mk [exNew1]).tasks.get ⟨0, by decide⟩) "status") ∧
    (∀ ss, Dict.get? [("id", JVal.num 1)] "subtasks" = some ss →
      Dict.get? ((Collection.mk [[("id", JVal.num 1), ("status", JVal.str "pending"),
          ("title", JVal.str "A"), ("subtasks", JVal.arrNil)]]).tasks.get ⟨0, by decide⟩)
        "subtasks" = some ss) ∧
    (Dict.get? [("id", JVal.num 1)] "subtasks" = none →
      Dict.get? ((Collection.mk [[("id", JVal.num 1), ("status", JVal.str "pending"),
          ("title", JVal.str "A"), ("subtasks", JVal.arrNil)]]).tasks.get ⟨0, by decide⟩)
        "subtasks"
        = some (Dict.getD ((Collection.mk [exNew1]).tasks.get ⟨0, by decide⟩) "subtasks"
            JVal.arrNil)) ∧
    (∀ q, q ≠ "status" → q ≠ "subtasks" →
      Dict.get? ((Collection.mk [[("id", JVal.num 1), ("status", JVal.str "pending"),
          ("title", JVal.str "A"), ("subtasks", JVal.arrNil)]]).tasks.get ⟨0, by decide⟩) q
        = Dict.get? ((Collection.mk [exNew1]).tasks.get ⟨0, by decide⟩) q) :=
  merge_fields_from_old ⟨[[("id", JVal.num 1)]]⟩ ⟨[exNew1]⟩
    ⟨[[("id", JVal.num 1), ("status", JVal.str "pending"), ("title", JVal.str "A"),
      ("subtasks", JVal.arrNil)]]⟩
    (by decide) (by decide) 0 (by decide) (by decide) [("id", JVal.num 1)] (by decide)
    (JVal.num 1) (by decide) (by decide)

/-- C2 counterexample: the old task with id 1 exists but has no `subtasks`
field.  The claim says the merged `subtasks` is then the empty sequence; the
code instead keeps the new task's `subtasks`. -/
theorem merge_subtasks_override_cex :
    merged_tasks ⟨[[("id", JVal.num 1), ("status", JVal.str "d")]]⟩
        ⟨[[("id", JVal.num 1), ("status", JVal.str "p"), ("subtasks", exSub)]]⟩
      = .ok ⟨[[("id", JVal.num 1), ("status", JVal.str "d"), ("subtasks", exSub)]]⟩
    ∧ Dict.get? [("id", JVal.num 1), ("status", JVal.str "d"), ("subtasks", exSub)] "subtasks"
        = Dict.get? [("id", JVal.num 1), ("status", JVal.str "p"), ("subtasks", exSub)] "subtasks"
    ∧ Dict.get? [("id", JVal.num 1), ("status", JVal.str "d"), ("subtasks", exSub)] "subtasks"
        ≠ some JVal.arrNil := by decide

/-- C2 (amended): for a new task matching an old task (old ids assumed
unique), the merged `subtasks` is the old task's `subtasks` when present;
when the old task has no `subtasks` field it is the new task's `subtasks`
when present, and the empty sequence only when both lack the field. -/
theorem merge_subtasks_override (old new c : Collection) (h : merged_tasks old new = .ok c)
    (hnd : (old.tasks.map (fun t => Dict.get? t "id")).Nodup)
    (k : Nat) (h1 : k < c.tasks.length) (h2 : k < new.tasks.length)
    (ot : Dict) (hmem : ot ∈ old.tasks) (i : JVal)
    (hoid : Dict.get? ot "id" = some i)
    (hnid : Dict.get? (new.tasks.get ⟨k, h2⟩) "id" = some i) :
    Dict.get? (c.tasks.get ⟨k, h1⟩) "subtasks"
      = some (Dict.getD ot "subtasks"
          (Dict.getD (new.tasks.get ⟨k, h2⟩) "subtasks" JVal.arrNil)) := by
  obtain ⟨m, hm, hl⟩ := merged_tasks_ok old new c h
  have hf := (mergeTaskList_ok_iff m new.tasks c.tasks).mp hl
  have hp := (List.forall₂_iff_get.mp hf).2 k h2 h1
  have hmget : TaskMap.get? m i = some ot := by
    rw [existing_tasks_map_get old.tasks m hm i,
      lookupLast_of_nodup old.tasks ot i hmem hoid hnd]
  obtain ⟨i', st, hi', hst, hshape⟩ := mergeTask_ok m _ _ hp
  rw [hnid] at hi'
  obtain rfl : i = i' := Option.some.inj hi'
  rw [hshape, Dict.get?_shape_subtasks, hmget]
  simp only [Option.getD_some]

/-- Witness for the amended C2 at the spec's example (task 1, position 0). -/
theorem merge_subtasks_override_witness :
    Dict.get? ((Collection.mk [exMerged1, exMerged3]).tasks.get ⟨0, by decide⟩) "subtasks"
      = some (Dict.getD exOld1 "subtasks"
          (Dict.getD ((Collection.mk [exNew1, exNew3]).tasks.get ⟨0, by decide⟩) "subtasks"
            JVal.arrNil)) :=
  merge_subtasks_override ⟨[exOld1, exOld2]⟩ ⟨[exNew1, exNew3]⟩ ⟨[exMerged1, exMerged3]⟩
    (by decide) (by decide) 0 (by decide) (by decide) exOld1 (by decide) (JVal.num 1)
    (by decide) (by decide)

/-- C3 counterexample: a new task with no counterpart and no `subtasks`
field: the merged entry gains a `subtasks: []` field the new entry never
had, so the merged entry is not exactly equal to the new entry. -/
theorem merge_new_only_cex :
    merged_tasks ⟨[]⟩ ⟨[[("id", JVal.num 7), ("status", JVal.str "p")]]⟩
      = .ok ⟨[[("id", JVal.num 7), ("status", JVal.str "p"), ("subtasks", JVal.arrNil)]]⟩
    ∧ [("id", JVal.num 7), ("status", JVal.str "p"), ("subtasks", JVal.arrNil)]
        ≠ [("id", JVal.num 7), ("status", JVal.str "p")]
    ∧ Dict.get? [("id", JVal.num 7), ("status", JVal.str "p"), ("subtasks", JVal.arrNil)]
        "subtasks" = some JVal.arrNil
    ∧ Dict.get? [("id", JVal.num 7), ("status", JVal.str "p")] "subtasks" = none := by decide

/-- C3 (amended): a new task with no counterpart in the old collection is
reproduced with only its `subtasks` updated — to its own `subtasks` when
present (in which case the merged entry IS exactly the new entry), else to
an appended empty sequence. -/
theorem merge_new_only (old new c : Collection) (h : merged_tasks old new = .ok c)
    (k : Nat) (h1 : k < c.tasks.length) (h2 : k < new.tasks.length)
    (hnone : ∀ ot ∈ old.tasks,
      Dict.get? ot "id" ≠ Dict.get? (new.tasks.get ⟨k, h2⟩) "id") :
    c.tasks.get ⟨k, h1⟩
        = Dict.set (new.tasks.get ⟨k, h2⟩) "subtasks"
            (Dict.getD (new.tasks.get ⟨k, h2⟩) "subtasks" JVal.arrNil) ∧
    (∀ ss, Dict.get? (new.tasks.get ⟨k, h2⟩) "subtasks" = some ss →
      c.tasks.get ⟨k, h1⟩ = new.tasks.get ⟨k, h2⟩) := by
  obtain ⟨m, hm, hl⟩ := merged_tasks_ok old new c h
  have hf := (mergeTaskList_ok_iff m new.tasks c.tasks).mp hl
  have hp := (List.forall₂_iff_get.mp hf).2 k h2 h1
  obtain ⟨i, st, hi, hst, hshape⟩ := mergeTask_ok m _ _ hp
  have hmget : TaskMap.get? m i = none := by
    rw [existing_tasks_map_get old.tasks m hm i]
    refine lookupLast_eq_none old.tasks i ?_
    intro t ht
    rw [← hi]
    exact hnone t ht
  have hval : Dict.getD ((TaskMap.get? m i).getD []) "status" st = st := by
    rw [hmget]
    rfl
  have hval2 : Dict.getD ((TaskMap.get? m i).getD []) "subtasks"
      (Dict.getD (new.tasks.get ⟨k, h2⟩) "subtasks" JVal.arrNil)
      = Dict.getD (new.tasks.get ⟨k, h2⟩) "subtasks" JVal.arrNil := by
    rw [hmget]
    rfl
  have hmain : c.tasks.get ⟨k, h1⟩
      = Dict.set (new.tasks.get ⟨k, h2⟩) "subtasks"
          (Dict.getD (new.tasks.get ⟨k, h2⟩) "subtasks" JVal.arrNil) := by
    rw [hshape, hval, hval2, Dict.set_of_get?_eq _ _ _ hst]
  refine ⟨hmain, ?_⟩
  intro ss hss
  rw [hmain]
  have hdflt : Dict.getD (new.tasks.get ⟨k, h2⟩) "subtasks" JVal.arrNil = ss := by
    simp only [Dict.getD, hss, Option.getD_some]
  rw [hdflt]
  exact Dict.set_of_get?_eq _ _ _ hss

/-- Witness for the amended C3 at the spec's example (task 3, position 1,
which has no `subtasks` field and receives an empty one). -/
theorem merge_new_only_witness :
    (Collection.mk [exMerged1, exMerged3]).tasks.get ⟨1, by decide⟩
        = Dict.set ((Collection.mk [exNew1, exNew3]).tasks.get ⟨1, by decide⟩) "subtasks"
            (Dict.getD ((Collection.mk [exNew1, exNew3]).tasks.get ⟨1, by decide⟩) "subtasks"
              JVal.arrNil) ∧
    (∀ ss, Dict.get? ((Collection.mk [exNew1, exNew3]).tasks.get ⟨1, by decide⟩) "subtasks"
        = some ss →
      (Collection.mk [exMerged1, exMerged3]).tasks.get ⟨1, by decide⟩
        = (Collection.mk [exNew1, exNew3]).tasks.get ⟨1, by decide⟩) :=
  merge_new_only ⟨[exOld1, exOld2]⟩ ⟨[exNew1, exNew3]⟩ ⟨[exMerged1, exMerged3]⟩
    (by decide) 1 (by decide) (by decide) (by decide)

/-- C10: when the old collection holds several tasks with the same id, the
comprehension-built lookup retains only the last one in sequence order: if
`ot` is the last old task with id `i`, then the map binds `i` to `ot` and a
new task with id `i` receives `ot`'s `status` and `subtasks`. -/
theorem merge_last_dup_wins (old new c : Collection) (h : merged_tasks old new = .ok c)
    (pre post : List Dict) (ot : Dict) (i : JVal)
    (hsplit : old.tasks = pre ++ ot :: post)
    (hotid : Dict.get? ot "id" = some i)
    (hpost : ∀ t ∈ post, Dict.get? t "id" ≠ some i)
    (k : Nat) (h1 : k < c.tasks.length) (h2 : k < new.tasks.length)
    (hnid : Dict.get? (new.tasks.get ⟨k, h2⟩) "id" = some i)
    (s ss : JVal) (hs : Dict.get? ot "status" = some s)
    (hss : Dict.get? ot "subtasks" = some ss) :
    (∃ m, existing_tasks_map old.tasks = .ok m ∧ TaskMap.get? m i = some ot) ∧
    Dict.get? (c.tasks.get ⟨k, h1⟩) "status" = some s ∧
    Dict.get? (c.tasks.get ⟨k, h1⟩) "subtasks" = some ss := by
  obtain ⟨m, hm, hl⟩ := merged_tasks_ok old new c h
  have hlook : lookupLast old.tasks i = some ot := by
    rw [hsplit, lookupLast_append, lookupLast_cons,
      lookupLast_eq_none post i hpost, if_pos hotid]
  have hmget : TaskMap.get? m i = some ot := by
    rw [existing_tasks_map_get old.tasks m hm i, hlook]
  have hf := (mergeTaskList_ok_iff m new.tasks c.tasks).mp hl
  have hp := (List.forall₂_iff_get.mp hf).2 k h2 h1
  obtain ⟨i', st, hi', hst, hshape⟩ := mergeTask_ok m _ _ hp
  rw [hnid] at hi'
  obtain rfl : i = i' := Option.some.inj hi'
  refine ⟨⟨m, hm, hmget⟩, ?_, ?_⟩
  · rw [hshape, Dict.get?_shape_status, hmget]
    simp only [Option.getD_some, Dict.getD, hs]
  · rw [hshape, Dict.get?_shape_subtasks, hmget]
    simp only [Option.getD_some, Dict.getD, hss]

/-- Witness for C10: two old tasks share id 1; the merged entry carries the
second (last) one's `status` and `subtasks`. -/
theorem merge_last_dup_wins_witness :
    (∃ m, existing_tasks_map
        (Collection.mk [[("id", JVal.num 1), ("status", JVal.str "s1"),
            ("subtasks", JVal.arrNil)],
          [("id", JVal.num 1), ("status", JVal.str "s2"), ("subtasks", exSub)]]).tasks
        = .ok m ∧
      TaskMap.get? m (JVal.num 1)
        = some [("id", JVal.num 1), ("status", JVal.str "s2"), ("subtasks", exSub)]) ∧
    Dict.get? ((Collection.mk [[("id", JVal.num 1), ("status", JVal.str "s2"),
        ("subtasks", exSub)]]).tasks.get ⟨0, by decide⟩) "status" = some (JVal.str "s2") ∧
    Dict.get? ((Collection.mk [[("id", JVal.num 1), ("status", JVal.str "s2"),
        ("subtasks", exSub)]]).tasks.get ⟨0, by decide⟩) "subtasks" = some exSub :=
  merge_last_dup_wins
    ⟨[[("id", JVal.num 1), ("status", JVal.str "s1"), ("subtasks", JVal.arrNil)],
      [("id", JVal.num 1), ("status", JVal.str "s2"), ("subtasks", exSub)]]⟩
    ⟨[[("id", JVal.num 1), ("status", JVal.str "p")]]⟩
    ⟨[[("id", JVal.num 1), ("status", JVal.str "s2"), ("subtasks", exSub)]]⟩
    (by decide)
    [[("id", JVal.num 1), ("status", JVal.str "s1"), ("subtasks", JVal.arrNil)]] []
    [("id", JVal.num 1), ("status", JVal.str "s2"), ("subtasks", exSub)] (JVal.num 1)
    (by decide) (by decide) (by decide)
    0 (by decide) (by decide) (by decide)
    (JVal.str "s2") exSub (by decide) (by decide)

/-- C6 counterexample: with a duplicated id in the new collection the merge
succeeds, but re-merging the result as the old input changes the first
duplicate's `status` (the lookup map retains only the last duplicate), so
`merge(merge(old, new), new) ≠ merge(old, new)`. -/
theorem merge_idempotent_cex :
    merged_tasks ⟨[]⟩ dupNew = .ok dupMerged
    ∧ merged_tasks dupMerged dupNew ≠ .ok dupMerged := by decide

/-- C6 (amended): the merge is idempotent in its old argument provided the
new collection's task ids are pairwise distinct (the spec's stated
data-model invariant): if `merge(old, new) = c` then `merge(c, new) = c`. -/
theorem merge_idempotent (old new c : Collection) (h : merged_tasks old new = .ok c)
    (hnd : (new.tasks.map (fun t => Dict.get? t "id")).Nodup) :
    merged_tasks c new = .ok c := by
  obtain ⟨m, hm, hl⟩ := merged_tasks_ok old new c h
  have hf := (mergeTaskList_ok_iff m new.tasks c.tasks).mp hl
  have hndc : (c.tasks.map (fun t => Dict.get? t "id")).Nodup := by
    rw [forall2_merge_map_id m new.tasks c.tasks hf]
    exact hnd
  have hcids : ∀ t ∈ c.tasks, (Dict.get? t "id").isSome := by
    intro t ht
    obtain ⟨⟨k, hk⟩, rfl⟩ := List.mem_iff_get.mp ht
    have h2 : k < new.tasks.length := by rw [hf.length_eq]; exact hk
    have hp := (List.forall₂_iff_get.mp hf).2 k h2 hk
    obtain ⟨i, st, hi, _, _⟩ := mergeTask_ok m _ _ hp
    rw [mergeTask_get?_id m _ _ hp, hi]
    rfl
  obtain ⟨m2, hm2⟩ := existingTasksMapFrom_ok c.tasks hcids []
  have hm2ok : existing_tasks_map c.tasks = .ok m2 := hm2
  have hq : List.Forall₂ (fun nt t => mergeTask m2 nt = .ok t) new.tasks c.tasks := by
    rw [List.forall₂_iff_get]
    refine ⟨hf.length_eq, ?_⟩
    intro k h2 h1
    have hp := (List.forall₂_iff_get.mp hf).2 k h2 h1
    obtain ⟨i, st, hi, hst, hshape⟩ := mergeTask_ok m _ _ hp
    have htid : Dict.get? (c.tasks.get ⟨k, h1⟩) "id" = some i := by
      rw [mergeTask_get?_id m _ _ hp, hi]
    have hm2get : TaskMap.get? m2 i = some (c.tasks.get ⟨k, h1⟩) := by
      rw [existing_tasks_map_get c.tasks m2 hm2ok i,
        lookupLast_of_nodup c.tasks _ i (List.get_mem c.tasks k h1) htid hndc]
    have hts : Dict.get? (c.tasks.get ⟨k, h1⟩) "status"
        = some (Dict.getD ((TaskMap.get? m i).getD []) "status" st) := by
      rw [hshape]
      exact Dict.get?_shape_status _ _ _
    have htss : Dict.get? (c.tasks.get ⟨k, h1⟩) "subtasks"
        = some (Dict.getD ((TaskMap.get? m i).getD []) "subtasks"
            (Dict.getD (new.tasks.get ⟨k, h2⟩) "subtasks" JVal.arrNil)) := by
      rw [hshape]
      exact Dict.get?_shape_subtasks _ _ _
    have e1 : Dict.getD (c.tasks.get ⟨k, h1⟩) "status" st
        = Dict.getD ((TaskMap.get? m i).getD []) "status" st := by
      simp only [Dict.getD, hts, Option.getD_some]
    have e2 : Dict.getD (c.tasks.get ⟨k, h1⟩) "subtasks"
          (Dict.getD (new.tasks.get ⟨k, h2⟩) "subtasks" JVal.arrNil)
        = Dict.getD ((TaskMap.get? m i).getD []) "subtasks"
            (Dict.getD (new.tasks.get ⟨k, h2⟩) "subtasks" JVal.arrNil) := by
      simp only [Dict.getD, htss, Option.getD_some]
    simp only [mergeTask, hi, hst, hm2get, Option.getD_some, e1, e2]
    rw [← hshape]
  have hlist : mergeTaskList m2 new.tasks = .ok c.tasks :=
    (mergeTaskList_ok_iff m2 new.tasks c.tasks).mpr hq
  simp only [merged_tasks, hm2ok, hlist]

/-- Witness for the amended C6 at the spec's example: re-merging the merged
collection with the same new collection reproduces it. -/
theorem merge_idempotent_witness :
    merged_tasks ⟨[exMerged1, exMerged3]⟩ ⟨[exNew1, exNew3]⟩ = .ok ⟨[exMerged1, exMerged3]⟩ :=
  merge_idempotent ⟨[exOld1, exOld2]⟩ ⟨[exNew1, exNew3]⟩ ⟨[exMerged1, exMerged3]⟩
    (by decide) (by decide)
